import Mathlib

/-!
Verification of the glyph-palette provider (`src/glyphs_provider.ts`).

The development shallowly embeds the provider's pure logic:
* the snippet-file data model (`Snippet`, `SnippetsFile`, `BqnPrimitive`),
* the catalog loader `_loadGlyphData` (key → category/name derivation,
  body-line filtering, error fallback),
* the webview message handler registered in `resolveWebviewView`,
  modelled as a trace of host-API calls, and
* the markup generator `_getHtmlForWebview`.

File reads and JSON parsing happen in the host; the loader is therefore
modelled as a function of the parse outcome (`Except String SnippetsFile`),
where `Except.error` stands for any exception thrown by `readFileSync` or
`JSON.parse`.  A `SnippetsFile` is the parsed object as an association list
in its key iteration order.
-/

/-- One snippet value: `interface Snippet { body: string[]; prefix: string[] }`.
The source field `prefix` is rendered here as `prefixes`. -/
structure Snippet where
  body : List String
  prefixes : List String
deriving Repr, DecidableEq

/-- The parsed snippets file: keys with their values, in iteration order. -/
abbrev SnippetsFile := List (String × Snippet)

/-- One glyph record: `interface BqnPrimitive { glyph; name; category }`. -/
structure BqnPrimitive where
  glyph : String
  name : String
  category : String
deriving Repr, DecidableEq

/-- Split a character list at its FIRST colon: `some (before, after)` when a
colon occurs, `none` otherwise.  Shared primitive for both regexes of the
loader, whose character class `[^:]+` can never run past the first colon. -/
def splitFirstColon : List Char → Option (List Char × List Char)
  | [] => none
  | c :: rest =>
    if c = ':' then some ([], rest)
    else (splitFirstColon rest).map (fun p => (c :: p.1, p.2))

/-- `fullKey.match(/^([^:]+):/)`: the capture group, i.e. the non-empty run of
non-colon characters before the first colon, or `none` when the key has no
colon or starts with one. -/
def categoryMatch (cs : List Char) : Option (List Char) :=
  match splitFirstColon cs with
  | some (p, _) => if p.isEmpty then none else some p
  | none => none

/-- `fullKey.replace(/^[^:]+:\s*/, '')`: drop the leading `<text>:` prefix and
the whitespace after the colon; when the anchored pattern does not match
(no colon, or the key starts with a colon) the key is unchanged. -/
def stripCategoryColon (cs : List Char) : List Char :=
  match splitFirstColon cs with
  | some (p, s) => if p.isEmpty then cs else s.dropWhile Char.isWhitespace
  | none => cs

/-- `.replace(/\s/g, '')`: delete every whitespace character. -/
def removeWhitespace (s : String) : String :=
  String.mk (s.data.filter (fun c => ¬ c.isWhitespace))

/-- JavaScript `String.prototype.trim`: strip whitespace from both ends. -/
def jsTrim (s : String) : String :=
  String.mk (((s.data.dropWhile Char.isWhitespace).reverse.dropWhile Char.isWhitespace).reverse)

/-- JavaScript `String.prototype.toLocaleLowerCase`, modelled characterwise. -/
def jsToLower (s : String) : String :=
  String.mk (s.data.map Char.toLower)

/-- `categoryMatch ? categoryMatch[1].trim().toLocaleLowerCase().replace(/\s/g, '') : 'other'`. -/
def deriveCategory (fullKey : String) : String :=
  match categoryMatch fullKey.data with
  | some cap => removeWhitespace (jsToLower (jsTrim (String.mk cap)))
  | none => "other"

/-- `fullKey.replace(/^[^:]+:\s*/, '').trim()`. -/
def deriveName (fullKey : String) : String :=
  jsTrim (String.mk (stripCategoryColon fullKey.data))

/-- The record pushed for a key and its (truthy) first body line. -/
def mkPrimitive (fullKey glyph : String) : BqnPrimitive :=
  { glyph := glyph, name := deriveName fullKey, category := deriveCategory fullKey }

/-- The `for (const fullKey in snippets)` loop of `_loadGlyphData`:
`snippet.body[0]` is `undefined` when the body is empty (modelled by
`head?`), and the record is pushed only when that value is truthy, i.e. a
non-empty string. -/
def loadLoop : SnippetsFile → List BqnPrimitive
  | [] => []
  | (fullKey, snippet) :: rest =>
    match snippet.body.head? with
    | none => loadLoop rest
    | some glyph =>
      if glyph = "" then loadLoop rest
      else mkPrimitive fullKey glyph :: loadLoop rest

/-- Observable outcome of `_loadGlyphData`: the returned array together with
the `vscode.window.showErrorMessage` and `console.error` calls it made. -/
structure LoadResult where
  records : List BqnPrimitive
  errorMessages : List String
  errorLogs : List String
deriving Repr, DecidableEq

/-- `_loadGlyphData`, as a function of the outcome of
`readFileSync` + `JSON.parse`: on success the loop result with no
side effects, on any thrown error the catch block — one notification, one
log, empty array. -/
def loadGlyphData (input : Except String SnippetsFile) : LoadResult :=
  match input with
  | .ok snippets => { records := loadLoop snippets, errorMessages := [], errorLogs := [] }
  | .error e =>
    { records := []
      errorMessages := ["Failed to load BQN snippets: " ++ e]
      errorLogs := ["Failed to load BQN snippets: " ++ e] }

/-- A cursor/selection range of the host editor; its contents are opaque to
the handler, which only forwards it to `editBuilder.replace`. -/
structure Selection where
  anchor : Nat
  active : Nat
deriving Repr, DecidableEq

/-- The slice of `vscode.TextEditor` the handler reads: its selections and
(an identifier for) its document. -/
structure TextEditor where
  selections : List Selection
  document : Nat
deriving Repr, DecidableEq

/-- An inbound webview message `{command, glyph}`. -/
structure WebviewMessage where
  command : String
  glyph : String
deriving Repr, DecidableEq

/-- A call made by the handler against the host API, in order. -/
inductive HostEvent where
  | showInformationMessage (text : String)
  | showErrorMessage (text : String)
  | applyEdit (replacements : List (Selection × String))
  | showTextDocument (doc : Nat)
deriving Repr, DecidableEq

/-- The edit built inside `editor.edit`: `editor.selections.forEach(sel =>
editBuilder.replace(sel, message.glyph))`, accumulating replacements in
visit order into one edit operation. -/
def buildEdit (selections : List Selection) (glyph : String) : List (Selection × String) :=
  selections.foldl (fun acc sel => acc ++ [(sel, glyph)]) []

/-- The `onDidReceiveMessage` callback registered in `resolveWebviewView`,
as the trace of host calls it performs given the current
`vscode.window.activeTextEditor`.  The `switch` recognises only
`'insertGlyph'`; the `.then` continuation puts `showTextDocument` after the
edit completes. -/
def onDidReceiveMessage (activeTextEditor : Option TextEditor)
    (message : WebviewMessage) : List HostEvent :=
  if message.command = "insertGlyph" then
    match activeTextEditor with
    | none => [.showInformationMessage "No active editor to insert glyph into."]
    | some editor =>
      [.applyEdit (buildEdit editor.selections message.glyph),
       .showTextDocument editor.document]
  else []

/-- One `<button>` element of the palette: fixed class `glyph-button` plus
the record's category, `title` set to the name, visible text the glyph. -/
def glyphButtonHtml (item : BqnPrimitive) : String :=
  "<button class=\"glyph-button " ++ item.category ++ "\" title=\"" ++ item.name
    ++ "\">" ++ item.glyph ++ "</button>"

/-- `bqnPrimitives.map(...).join('')`. -/
def glyphButtonsHtml (bqnPrimitives : List BqnPrimitive) : String :=
  String.join (bqnPrimitives.map glyphButtonHtml)

/-- The template text of `_getHtmlForWebview` before the interpolated
button list (doctype, head, style table). -/
def htmlDocumentHead : String :=
  "<!DOCTYPE html>\n    <html lang=\"en\">\n    <head>\n      <meta charset=\"UTF-8\">\n      <meta name=\"viewport\" content=\"width=device-width, initial-scale=1.0\">\n      <title>BQN Glyphs</title>\n      <style>\n        body \x7b\n          padding: 5px;\n          font-size: 1.5em;\n        \x7d\n        .glyph-button \x7b\n          cursor: pointer;\n          border: 1px solid var(--vscode-button-secondaryBackground);\n          background-color: var(--vscode-button-secondaryBackground);\n          color: var(--vscode-editor-foreground);\n          margin: 2px;\n          padding: 5px 10px;\n          border-radius: 3px;\n          min-width: 40px;\n          text-align: center;\n          font-size: 0.75em;\n        \x7d\n        /* Category-specific colors (overrides the default \x27color\x27 property) */\n        .value \x7b color: var(--vscode-terminal-ansiWhite); \x7d\n        .function \x7b color: var(--vscode-terminal-ansiBrightGreen); \x7d\n        .modifier \x7b color: var(--vscode-terminal-ansiMagenta); \x7d\n        .modifier2 \x7b color: var(--vscode-terminal-ansiBrightYellow); \x7d\n        .number \x7b color: var(--vscode-terminal-ansiRed); \x7d\n        .gets \x7b color: var(--vscode-terminal-ansiWhite); \x7d\n        .parens \x7b color: var(--vscode-terminal-ansiWhite); \x7d\n        .bracket \x7b color: var(--vscode-terminal-ansiBrightMagenta); \x7d\n        .brace \x7b color: var(--vscode-terminal-ansiMagenta); \x7d\n        .ligature \x7b color: var(--vscode-terminal-ansiWhite); \x7d\n        .nothing \x7b color: var(--vscode-terminal-ansiRed); \x7d\n        .separator \x7b color: var(--vscode-terminal-ansiBrightMagenta); \x7d\n        .comment \x7b color: var(--vscode-terminal-ansiBlue); \x7d\n        .string \x7b color: var(--vscode-terminal-ansiBrightBlue); \x7d\n        .other \x7b color: var(--vscode-terminal-ansiWhite); \x7d\n        .glyph-button:hover \x7b\n          background-color: var(--vscode-button-secondaryHoverBackground);\n        \x7d\n      </style>\n    </head>\n    <body>\n      "

/-- The template text of `_getHtmlForWebview` after the interpolated button
list (interaction script, closing tags). -/
def htmlDocumentTail : String :=
  "\n\n      <script>\n        const vscode = acquireVsCodeApi();\n\n        document.body.addEventListener(\x27click\x27, event => \x7b\n          if (event.target.className.includes(\x27glyph-button\x27)) \x7b\n            vscode.postMessage(\x7b\n              command: \x27insertGlyph\x27,\n              glyph: event.target.innerText\n            \x7d);\n          \x7d\n        \x7d);\n      </script>\n    </body>\n    </html>"

/-- The markup generator: glyph records to the full webview HTML string. -/
def htmlMarkup (bqnPrimitives : List BqnPrimitive) : String :=
  htmlDocumentHead ++ glyphButtonsHtml bqnPrimitives ++ htmlDocumentTail

/-- `_getHtmlForWebview`: loads the glyph data afresh and renders it. -/
def getHtmlForWebview (input : Except String SnippetsFile) : String :=
  htmlMarkup (loadGlyphData input).records

/-! ## Helper lemmas -/

/-- When a colon occurs, `splitFirstColon` splits exactly at the first one. -/
theorem splitFirstColon_of_mem {cs : List Char} (h : ':' ∈ cs) :
    splitFirstColon cs =
      some (cs.takeWhile (fun c => c ≠ ':'), (cs.dropWhile (fun c => c ≠ ':')).tail) := by
  induction cs with
  | nil => cases h
  | cons c rest ih =>
    by_cases hc : c = ':'
    · subst hc
      simp [splitFirstColon, List.takeWhile_cons, List.dropWhile_cons]
    · have hmem : ':' ∈ rest := by
        rcases List.mem_cons.mp h with h' | h'
        · exact absurd h'.symm hc
        · exact h'
      simp [splitFirstColon, hc, ih hmem, List.takeWhile_cons, List.dropWhile_cons]

/-- When no colon occurs, `splitFirstColon` fails. -/
theorem splitFirstColon_of_not_mem {cs : List Char} (h : ':' ∉ cs) :
    splitFirstColon cs = none := by
  induction cs with
  | nil => rfl
  | cons c rest ih =>
    have hc : c ≠ ':' := fun hc => h (hc ▸ List.mem_cons_self c rest)
    have hrest : ':' ∉ rest := fun hm => h (List.mem_cons_of_mem c hm)
    simp [splitFirstColon, hc, ih hrest]

/-- A key that contains a colon but does not start with one has a non-empty
run of characters before the first colon. -/
theorem takeWhile_ne_nil_of_head {cs : List Char} (hmem : ':' ∈ cs)
    (hhead : cs.head? ≠ some ':') : cs.takeWhile (fun c => c ≠ ':') ≠ [] := by
  cases cs with
  | nil => cases hmem
  | cons c rest =>
    have hc : c ≠ ':' := fun hc => hhead (by simp [hc])
    simp [List.takeWhile_cons, hc]

/-- The category regex captures the text before the first colon whenever the
key contains a colon preceded by at least one character. -/
theorem categoryMatch_eq_some {cs : List Char} (hmem : ':' ∈ cs)
    (hhead : cs.head? ≠ some ':') :
    categoryMatch cs = some (cs.takeWhile (fun c => c ≠ ':')) := by
  have hfalse : (cs.takeWhile (fun c => c ≠ ':')).isEmpty = false :=
    List.isEmpty_eq_false.mpr (takeWhile_ne_nil_of_head hmem hhead)
  unfold categoryMatch
  rw [splitFirstColon_of_mem hmem]
  dsimp only
  rw [hfalse]
  rfl

/-- Under the same conditions, the name regex strips the text before the
first colon, the colon, and the whitespace after it. -/
theorem stripCategoryColon_eq_of_mem {cs : List Char} (hmem : ':' ∈ cs)
    (hhead : cs.head? ≠ some ':') :
    stripCategoryColon cs =
      ((cs.dropWhile (fun c => c ≠ ':')).tail).dropWhile Char.isWhitespace := by
  have hfalse : (cs.takeWhile (fun c => c ≠ ':')).isEmpty = false :=
    List.isEmpty_eq_false.mpr (takeWhile_ne_nil_of_head hmem hhead)
  unfold stripCategoryColon
  rw [splitFirstColon_of_mem hmem]
  dsimp only
  rw [hfalse]
  rfl

/-- The category regex fails on a key without a colon. -/
theorem categoryMatch_eq_none_of_not_mem {cs : List Char} (h : ':' ∉ cs) :
    categoryMatch cs = none := by
  unfold categoryMatch
  rw [splitFirstColon_of_not_mem h]

/-- The name regex leaves a key without a colon unchanged. -/
theorem stripCategoryColon_of_not_mem {cs : List Char} (h : ':' ∉ cs) :
    stripCategoryColon cs = cs := by
  unfold stripCategoryColon
  rw [splitFirstColon_of_not_mem h]

/-- The loader's loop is a filter (on truthiness of the first body line)
followed by a map (building the record from key and first body line). -/
theorem loadLoop_eq_filter_map (file : SnippetsFile) :
    loadLoop file =
      (file.filter (fun e => e.2.body.headD "" ≠ "")).map
        (fun e => mkPrimitive e.1 (e.2.body.headD "")) := by
  induction file with
  | nil => rfl
  | cons e rest ih =>
    obtain ⟨fullKey, snippet⟩ := e
    cases hbody : snippet.body with
    | nil => simp [loadLoop, hbody, ih]
    | cons g tl =>
      by_cases hg : g = ""
      · subst hg
        simp [loadLoop, hbody, ih]
      · simp [loadLoop, hbody, hg, ih]

/-- Folding `push` over the selections builds the mapped list. -/
theorem buildEdit_eq_map (selections : List Selection) (glyph : String) :
    buildEdit selections glyph = selections.map (fun sel => (sel, glyph)) := by
  have key : ∀ (sels : List Selection) (acc : List (Selection × String)),
      sels.foldl (fun acc sel => acc ++ [(sel, glyph)]) acc =
        acc ++ sels.map (fun sel => (sel, glyph)) := by
    intro sels
    induction sels with
    | nil => intro acc; simp
    | cons sel rest ih => intro acc; simp [ih]
  simpa [buildEdit] using key selections []

/-! ## Claims -/

/-- Claim C1: for a key with a colon preceded by at least one character, the
category is the text before the first colon, trimmed, lowercased and with
all whitespace removed, and the name is the key with the leading text, the
colon and the following whitespace removed, then trimmed; for a key with no
colon the category is `other` and the name is the trimmed key. -/
theorem claim_C1 (key : String) :
    ((':' ∈ key.data ∧ key.data.head? ≠ some ':') →
      deriveCategory key =
        removeWhitespace (jsToLower (jsTrim
          (String.mk (key.data.takeWhile (fun c => c ≠ ':'))))) ∧
      deriveName key =
        jsTrim (String.mk
          (((key.data.dropWhile (fun c => c ≠ ':')).tail).dropWhile Char.isWhitespace)))
    ∧ (':' ∉ key.data →
      deriveCategory key = "other" ∧ deriveName key = jsTrim key) := by
  constructor
  · rintro ⟨hmem, hhead⟩
    constructor
    · unfold deriveCategory
      rw [categoryMatch_eq_some hmem hhead]
    · unfold deriveName
      rw [stripCategoryColon_eq_of_mem hmem hhead]
  · intro hmem
    constructor
    · unfold deriveCategory
      rw [categoryMatch_eq_none_of_not_mem hmem]
    · unfold deriveName
      rw [stripCategoryColon_of_not_mem hmem]

/-- Concrete instance of C1 at the spec's example keys. -/
theorem claim_C1_witness :
    (deriveCategory "Function: Conjugate, Add" =
        removeWhitespace (jsToLower (jsTrim
          (String.mk ("Function: Conjugate, Add".data.takeWhile (fun c => c ≠ ':'))))) ∧
      deriveName "Function: Conjugate, Add" =
        jsTrim (String.mk
          ((("Function: Conjugate, Add".data.dropWhile (fun c => c ≠ ':')).tail).dropWhile
            Char.isWhitespace)))
    ∧ (deriveCategory "Standalone" = "other" ∧ deriveName "Standalone" = jsTrim "Standalone")
    ∧ deriveCategory "Function: Conjugate, Add" = "function"
    ∧ deriveName "Function: Conjugate, Add" = "Conjugate, Add"
    ∧ deriveCategory "Modifier 2: Foo" = "modifier2"
    ∧ deriveName "Modifier 2: Foo" = "Foo" :=
  ⟨(claim_C1 "Function: Conjugate, Add").1 (by decide),
   (claim_C1 "Standalone").2 (by decide),
   by decide, by decide, by decide, by decide⟩

/-- Claim C2: on a well-formed file the loader returns exactly one record per
entry whose first body line is non-empty — the entries with an empty or
missing first body line are the only ones skipped, and each surviving entry
yields its record. -/
theorem claim_C2 (file : SnippetsFile) :
    loadLoop file =
      (file.filter (fun e => e.2.body.headD "" ≠ "")).map
        (fun e => mkPrimitive e.1 (e.2.body.headD "")) :=
  loadLoop_eq_filter_map file

/-- Claim C3: the loader is total; it either returns the derived records of a
successfully parsed file with no side effects, or, on any failure, makes
exactly one notification call and exactly one log call and returns the empty
sequence — it never propagates the exception. -/
theorem claim_C3 (input : Except String SnippetsFile) :
    (∃ snippets, input = Except.ok snippets ∧
      loadGlyphData input =
        { records := loadLoop snippets, errorMessages := [], errorLogs := [] })
    ∨ (∃ e, input = Except.error e ∧
      (loadGlyphData input).records = [] ∧
      (loadGlyphData input).errorMessages.length = 1 ∧
      (loadGlyphData input).errorLogs.length = 1) := by
  cases input with
  | ok snippets => exact Or.inl ⟨snippets, rfl, rfl⟩
  | error e => exact Or.inr ⟨e, rfl, rfl, rfl, rfl⟩

/-- Claim C4: with an active editor, an `insertGlyph` message produces one
single edit operation replacing every selection with the glyph, followed —
after the edit completes — by revealing the editor's document. -/
theorem claim_C4 (editor : TextEditor) (glyph : String) :
    onDidReceiveMessage (some editor) { command := "insertGlyph", glyph := glyph } =
      [HostEvent.applyEdit (editor.selections.map (fun sel => (sel, glyph))),
       HostEvent.showTextDocument editor.document] := by
  simp [onDidReceiveMessage, buildEdit_eq_map]

/-- Claim C5: with no active editor, an `insertGlyph` message produces exactly
one informational notice with the expected text and nothing else — no edit,
no reveal, no error notification. -/
theorem claim_C5 (glyph : String) :
    onDidReceiveMessage none { command := "insertGlyph", glyph := glyph } =
      [HostEvent.showInformationMessage "No active editor to insert glyph into."] := by
  simp [onDidReceiveMessage]

/-- Claim C6: the records the loader returns are an order-preserving
selection of the per-entry records in the file's key iteration order — no
sorting is applied. -/
theorem claim_C6 (file : SnippetsFile) :
    (loadLoop file).Sublist
      (file.map (fun e => mkPrimitive e.1 (e.2.body.headD ""))) := by
  rw [loadLoop_eq_filter_map]
  exact (List.filter_sublist _).map _

/-- Claim C7: every returned record carries a non-empty glyph string, and the
number of records is at most the number of snippet entries. -/
theorem claim_C7 (file : SnippetsFile) :
    (∀ r ∈ loadLoop file, r.glyph ≠ "") ∧ (loadLoop file).length ≤ file.length := by
  rw [loadLoop_eq_filter_map]
  constructor
  · intro r hr
    obtain ⟨e, he, rfl⟩ := List.mem_map.mp hr
    have hfilter := List.of_mem_filter he
    simpa [mkPrimitive] using hfilter
  · rw [List.length_map]
    exact List.length_filter_le _ _

/-- Concrete instance of C7: a two-entry file with one empty-body entry. -/
theorem claim_C7_witness :
    (mkPrimitive "Function: Conjugate, Add" "+").glyph ≠ "" ∧
      (loadLoop [("Function: Conjugate, Add", ⟨["+"], ["add"]⟩),
                 ("Value: Empty", ⟨[], []⟩)]).length ≤
        ([("Function: Conjugate, Add", (⟨["+"], ["add"]⟩ : Snippet)),
          ("Value: Empty", ⟨[], []⟩)] : SnippetsFile).length :=
  ⟨(claim_C7 [("Function: Conjugate, Add", ⟨["+"], ["add"]⟩),
              ("Value: Empty", ⟨[], []⟩)]).1 _ (by decide),
   (claim_C7 [("Function: Conjugate, Add", ⟨["+"], ["add"]⟩),
              ("Value: Empty", ⟨[], []⟩)]).2⟩

/-- Claim C8: a message whose command is not `insertGlyph` produces no host
call at all — no notification, no edit, no focus change. -/
theorem claim_C8 (activeTextEditor : Option TextEditor) (message : WebviewMessage)
    (h : message.command ≠ "insertGlyph") :
    onDidReceiveMessage activeTextEditor message = [] := by
  simp [onDidReceiveMessage, h]

/-- Concrete instance of C8 at an unrecognized command. -/
theorem claim_C8_witness :
    onDidReceiveMessage none { command := "copyGlyph", glyph := "+" } = [] :=
  claim_C8 none { command := "copyGlyph", glyph := "+" } (by decide)

/-- Claim C9: markup generation is deterministic and pure — identical record
sequences yield byte-identical markup strings. -/
theorem claim_C9 (records₁ records₂ : List BqnPrimitive) (h : records₁ = records₂) :
    htmlMarkup records₁ = htmlMarkup records₂ :=
  congrArg htmlMarkup h

/-- Concrete instance of C9 at a one-record catalog. -/
theorem claim_C9_witness :
    htmlMarkup [{ glyph := "⍳", name := "Range", category := "function" }] =
      htmlMarkup [{ glyph := "⍳", name := "Range", category := "function" }] :=
  claim_C9 _ _ rfl

/-- Claim C10: a key whose first character is a colon is treated like a key
with no colon — category `other`, name the trimmed full key (leading colon
included). -/
theorem claim_C10 (key : String) (h : key.data.head? = some ':') :
    deriveCategory key = "other" ∧ deriveName key = jsTrim key := by
  obtain ⟨cs⟩ := key
  cases cs with
  | nil => cases h
  | cons c rest =>
    have hc : c = ':' := by
      have := h
      simpa using this
    subst hc
    exact ⟨rfl, rfl⟩

/-- Concrete instance of C10 at the key `:Foo`. -/
theorem claim_C10_witness :
    (deriveCategory ":Foo" = "other" ∧ deriveName ":Foo" = jsTrim ":Foo")
      ∧ deriveName ":Foo" = ":Foo" :=
  ⟨claim_C10 ":Foo" (by decide), by decide⟩
